import Mathlib

/-!
Verification of the resticm backup orchestrator core against its
natural-language specification.

The Go source is shallowly embedded: each pure computation becomes a Lean
function, and each effectful step (an external-process invocation, a hook
script, the filesystem, the clock) is abstracted by an oracle recorded in a
`World` structure; a workflow run produces an ordered event trace, an
accumulated error list, and the returned error value, exactly mirroring the
control flow of the Go functions `runBackup` (cmd/backup.go),
`runDefaultWorkflow` (cmd/root.go) and `runFull` (cmd/full.go) together with
the leaf helpers in internal/restic and internal/hooks.
-/

namespace Resticm

/-! ## External engine adapter: cross-account S3 detection (internal/restic copy code)

`isS3Repository`, `isCrossAccountS3` and the pre-flight test at the top of
`Copy` are translated verbatim.  `Copy` itself interacts with the filesystem
(temporary password file) and spawns the engine; those effects are
abstracted by a `CopyWorld` oracle, and the returned pair records whether the
external engine process was invoked. -/

/-- `isS3Repository` from the source: `strings.HasPrefix(repo, "s3:")`,
expressed on the underlying character list so that it evaluates by kernel
reduction. -/
def isS3Repository (repo : String) : Bool :=
  "s3:".data.isPrefixOf repo.data

/-- `isCrossAccountS3` from the source: both repositories are S3 and the two
access keys are non-empty and different. -/
def isCrossAccountS3 (fromRepo toRepo fromKey toKey : String) : Bool :=
  if !isS3Repository fromRepo || !isS3Repository toRepo then false
  else fromKey != "" && toKey != "" && fromKey != toKey

/-- `CopyOptions` from the source (fields that drive control flow). -/
structure CopyOptions where
  fromRepository : String
  fromPassword : String
  fromAWSAccessKeyID : String
  toRepository : String
  toAWSAccessKeyID : String
  hostname : String
  deriving DecidableEq, Repr

/-- Error values `Copy` can return. -/
inductive CopyErr where
  | crossAccountS3 (fromRepo toRepo : String)
  | tempFileFailed
  | engineFailed
  deriving DecidableEq, Repr

/-- Oracle for the effects inside `Copy`: whether creating the temporary
source-password file succeeds, and whether the engine subprocess exits 0. -/
structure CopyWorld where
  tempFileOk : Bool
  engineOk : Bool
  deriving DecidableEq, Repr

/-- `Executor.Copy` from the source, reduced to its control flow.  The first
component records whether the external engine process was invoked (`e.Run`),
the second the returned error.  The cross-account check comes first and
returns before any subprocess; the temporary password file is only created
when the source password is non-empty. -/
def copyRun (w : CopyWorld) (opts : CopyOptions) : Bool × Option CopyErr :=
  if isCrossAccountS3 opts.fromRepository opts.toRepository
      opts.fromAWSAccessKeyID opts.toAWSAccessKeyID then
    (false, some (.crossAccountS3 opts.fromRepository opts.toRepository))
  else if opts.fromPassword != "" && !w.tempFileOk then
    (false, some .tempFileFailed)
  else
    (true, if w.engineOk then none else some .engineFailed)

/-! ## Hook runner (internal/hooks/hooks.go)

`Runner.Run` checks, in order: empty path, `os.Stat` (missing file is a
silent skip, another stat error is reported), the executable bit, and only
then the dry-run flag; finally it spawns the script.  The filesystem and the
script's behaviour are abstracted by a `HookFS` oracle.  The result pair
records the outcome and whether a subprocess was spawned. -/

/-- What `os.Stat` reports for a path: missing file, some other stat error,
or a present file with or without any execute bit. -/
inductive FileStatus where
  | missing
  | statError
  | present (executable : Bool)
  deriving DecidableEq, Repr

/-- Filesystem / subprocess oracle for `Runner.Run`. -/
structure HookFS where
  status : String → FileStatus
  runOk : String → Bool
  runOutput : String → String

/-- Outcome of one `Runner.Run` call. -/
inductive HookOutcome where
  | ok (output : String)
  | accessError
  | notExecutable
  | failed (output : String)
  deriving DecidableEq, Repr

/-- `Runner.Run` from the source.  The second component records whether a
child process was spawned.  Note the order: the executable-bit check comes
before the dry-run check. -/
def hookRun (dryRun : Bool) (fs : HookFS) (path : String) : HookOutcome × Bool :=
  if path = "" then (.ok "", false)
  else
    match fs.status path with
    | .missing => (.ok "", false)
    | .statError => (.accessError, false)
    | .present false => (.notExecutable, false)
    | .present true =>
      if dryRun then (.ok "", false)
      else if fs.runOk path then (.ok (fs.runOutput path), true)
      else (.failed (fs.runOutput path), true)

/-! ## Deep-check tracker (internal/restic/check.go)

Timestamps are nanoseconds since an arbitrary epoch, mirroring Go's
`time.Duration` arithmetic (`intervalDays * 24 * time.Hour`).  `lastCheck`
abstracts `DeepCheckTracker.LastCheck`: `none` stands for any of its
"never checked" outcomes — a missing state file, an unreadable state file
(read or unmarshal error), a repository-identity mismatch, or a zero
timestamp — all of which make `ShouldRunDeepCheck` see an error or a zero
time. -/

/-- Nanoseconds in 24 hours, as in `24 * time.Hour`. -/
def nsPerDay : Int := 86400000000000

/-- `DeepCheckTracker.ShouldRunDeepCheck` from the source:
no deep check for a non-positive interval; a missing/unreadable/zero last
check always triggers one; otherwise `time.Now().After(deadline)` — a strict
comparison. -/
def shouldRunDeepCheck (intervalDays : Int) (lastCheck : Option Int) (now : Int) : Bool :=
  if intervalDays ≤ 0 then false
  else
    match lastCheck with
    | none => true
    | some last => decide (last + intervalDays * nsPerDay < now)

/-! ## Lock verification (internal/restic/snapshots.go) -/

/-- `Lock` record as decoded from the engine's JSON output. -/
structure LockRec where
  time : Int
  hostname : String
  username : String
  pid : Int
  deriving DecidableEq, Repr

/-- `LockVerificationResult` from the source. -/
structure LockVerificationResult where
  currentHostname : String
  hasOwnLocks : Bool
  hasOtherLocks : Bool
  ownHostLocks : List LockRec
  otherHostLocks : List LockRec
  deriving DecidableEq, Repr

/-- The classification loop inside `VerifyNoStaleLocks`: one pass over the
lock list, appending each lock to the own-host or other-host list. -/
def classifyLocks (locks : List LockRec) (currentHostname : String) :
    List LockRec × List LockRec :=
  locks.foldl
    (fun acc l =>
      if l.hostname == currentHostname then (acc.1 ++ [l], acc.2)
      else (acc.1, acc.2 ++ [l]))
    ([], [])

/-- `Executor.VerifyNoStaleLocks` from the source, applied to an
already-listed lock set (listing itself is an engine call; on a listing
error the Go function returns early and produces no result). -/
def verifyNoStaleLocks (locks : List LockRec) (currentHostname : String) :
    LockVerificationResult :=
  let pair := classifyLocks locks currentHostname
  { currentHostname := currentHostname
    ownHostLocks := pair.1
    otherHostLocks := pair.2
    hasOwnLocks := decide (0 < pair.1.length)
    hasOtherLocks := decide (0 < pair.2.length) }

/-! ## Latest snapshot (internal/restic/snapshots.go) -/

/-- `Snapshot` as decoded from the engine's JSON output. -/
structure Snapshot where
  id : String
  shortID : String
  time : Int
  hostname : String
  username : String
  deriving DecidableEq, Repr

/-- `Executor.GetLatestSnapshot` from the source, applied to the decoded
engine result: an engine/decode failure propagates; an empty snapshot list
yields `(nil, nil)`; otherwise the first element is returned. -/
def getLatestSnapshot (engineResult : Except String (List Snapshot)) :
    Except String (Option Snapshot) :=
  match engineResult with
  | .error e => .error e
  | .ok snapshots =>
    match snapshots with
    | [] => .ok none
    | s :: _ => .ok (some s)

/-! ## Workflow orchestration (cmd/backup.go, cmd/root.go, cmd/full.go)

The workflow functions are embedded as pure functions from a configuration,
the parsed command flags, and a `World` of oracles (one Boolean per external
effect: lock acquisition, each engine subcommand per target, each hook
script) to an ordered event trace, the accumulated `errors` list, and the
returned error value.  Targets are labelled: the primary repository's
executor versus the per-backend destination executor. -/

/-- Which repository an engine invocation addresses. -/
inductive Tgt where
  | primary
  | backend (name : String)
  deriving DecidableEq, Repr

/-- `config.Retention` fields used by the workflows. -/
structure RetentionConfig where
  keepWithin : String
  keepHourly : Int
  keepDaily : Int
  keepWeekly : Int
  keepMonthly : Int
  keepYearly : Int
  deriving DecidableEq, Repr

/-- `restic.ForgetOptions` from internal/restic/forget.go. -/
structure ForgetOptions where
  keepWithin : String
  keepHourly : Int
  keepDaily : Int
  keepWeekly : Int
  keepMonthly : Int
  keepYearly : Int
  hostname : String
  prune : Bool
  groupBy : String
  deriving DecidableEq, Repr

/-- The validated configuration fields the workflow control flow reads.
`backendExists name` models the `_, ok := cfg.Backends[name]` map lookup
(runDefaultWorkflow checks it and skips unknown names; runFull indexes the
map directly and would get a zero value). -/
structure Config where
  retention : RetentionConfig
  copyToBackends : List String
  deepCheckIntervalDays : Int
  backendExists : String → Bool

/-- One entry of the run's event trace: a hook invocation or an engine
invocation, with the outcome it had. -/
inductive Event where
  | hookPre (ok : Bool)
  | hookPost (backupSucceeded : Bool) (ok : Bool)
  | hookOnError
  | hookOnSuccess
  | backup (ok : Bool)
  | forget (target : Tgt) (opts : ForgetOptions) (ok : Bool)
  | prune (target : Tgt) (ok : Bool)
  | check (target : Tgt) (readData : Bool) (ok : Bool)
  | copy (name : String) (ok : Bool)
  | record (target : Tgt)
  deriving DecidableEq, Repr

/-- Error values the workflows create, one constructor per `fmt.Errorf`
site that feeds the `errors` list or the function result. -/
inductive Err where
  | lockAcquire
  | resticMissing
  | notInitialized
  | backendNotFound (name : String)
  | preHook
  | backup
  | forget (target : Tgt)
  | prune (target : Tgt)
  | check (target : Tgt)
  | copy (name : String)
  | aggregate (n : Nat)
  deriving DecidableEq, Repr

/-- Oracles for every external effect a workflow performs.  Each field gives
the success of the corresponding call; `trackerOk` is whether
`NewDeepCheckTracker` returns without error, `shouldDeep` the value of
`tracker.ShouldRunDeepCheck` for that repository. -/
structure World where
  lockOk : Bool
  resticInstalled : Bool
  initialized : Bool
  activeBackend : String
  preHookOk : Bool
  postHookOk : Bool
  backupOk : Bool
  forgetOk : Tgt → Bool
  pruneOk : Tgt → Bool
  checkOk : Tgt → Bool
  copyOk : String → Bool
  trackerOk : Tgt → Bool
  shouldDeep : Tgt → Bool

/-- The `restic.ForgetOptions` literal the workflows build: every retention
field copied from the configuration, the given hostname filter, and the
zero values for `Prune`/`GroupBy`. -/
def mkForgetOpts (r : RetentionConfig) (hostname : String) : ForgetOptions :=
  { keepWithin := r.keepWithin
    keepHourly := r.keepHourly
    keepDaily := r.keepDaily
    keepWeekly := r.keepWeekly
    keepMonthly := r.keepMonthly
    keepYearly := r.keepYearly
    hostname := hostname
    prune := false
    groupBy := "" }

/-- One `executor.Forget` step: the engine call is recorded with its
outcome; on failure (and only then) the error joins the list. -/
def forgetStep (w : World) (t : Tgt) (opts : ForgetOptions) : List Event × List Err :=
  ([.forget t opts (w.forgetOk t)], if w.forgetOk t then [] else [.forget t])

/-- One `executor.Prune` step. -/
def pruneStep (w : World) (t : Tgt) : List Event × List Err :=
  ([.prune t (w.pruneOk t)], if w.pruneOk t then [] else [.prune t])

/-- One `executor.Check` step as `runFull` performs it: on success with a
deep check, `RecordCheck` persists the timestamp (guarded by a second
`NewDeepCheckTracker` call); on failure the error joins the list and no
timestamp is recorded. -/
def checkStepFull (w : World) (t : Tgt) (readData : Bool) : List Event × List Err :=
  ([.check t readData (w.checkOk t)] ++
     (if w.checkOk t && readData && w.trackerOk t then [.record t] else []),
   if w.checkOk t then [] else [.check t])

/-- One `executor.Check` step as `runDefaultWorkflow` performs it (no
deep-check tracker there). -/
def checkStepSimple (w : World) (t : Tgt) (readData : Bool) : List Event × List Err :=
  ([.check t readData (w.checkOk t)], if w.checkOk t then [] else [.check t])

/-- The `shouldDeep` computation in `runFull`: the `--deep` flag, or a
positive configured interval with a successfully constructed tracker whose
`ShouldRunDeepCheck` answers true. -/
def computeShouldDeep (cfg : Config) (deepFlag : Bool) (w : World) (t : Tgt) : Bool :=
  deepFlag || (decide (0 < cfg.deepCheckIntervalDays) && w.trackerOk t && w.shouldDeep t)

/-- Flags of the `full` subcommand. -/
structure FullFlags where
  extraTag : String
  deep : Bool
  allHosts : Bool
  noHooks : Bool
  deriving DecidableEq, Repr

/-- The backup step of `runFull` after the pre-backup hook has succeeded
(or hooks are disabled): the engine call is recorded with its outcome; on
engine failure the post-backup hook runs with failure status, then the
on-error hook; on success the post-backup hook runs with success status and
its error is discarded. -/
def fullBackupPhase (noHooks : Bool) (w : World) : List Event × List Err :=
  ([.backup w.backupOk] ++
     (if noHooks then []
      else if w.backupOk then [.hookPost true w.postHookOk]
      else [.hookPost false w.postHookOk, .hookOnError]),
   if w.backupOk then [] else [.backup])

/-- The primary-repository phase of `runFull`: backup, forget, prune, check
in order, each failure only appended to the error list. -/
def runFullPrimary (cfg : Config) (fl : FullFlags) (w : World) (fOpts : ForgetOptions) :
    List Event × List Err :=
  let b := fullBackupPhase fl.noHooks w
  let f := forgetStep w .primary fOpts
  let p := pruneStep w .primary
  let c := checkStepFull w .primary (computeShouldDeep cfg fl.deep w .primary)
  (b.1 ++ f.1 ++ p.1 ++ c.1, b.2 ++ f.2 ++ p.2 ++ c.2)

/-- One iteration of `runFull`'s backend loop: a failed copy appends its
error and `continue`s, skipping that backend's forget/prune/check; a
successful copy is followed by forget (with the very same `forgetOpts`
value), prune, and check with the per-backend deep-check decision. -/
def runFullBackend (cfg : Config) (fl : FullFlags) (w : World) (fOpts : ForgetOptions)
    (name : String) : List Event × List Err :=
  if w.copyOk name then
    let t := Tgt.backend name
    let f := forgetStep w t fOpts
    let p := pruneStep w t
    let c := checkStepFull w t (computeShouldDeep cfg fl.deep w t)
    ([.copy name true] ++ f.1 ++ p.1 ++ c.1, f.2 ++ p.2 ++ c.2)
  else
    ([.copy name false], [.copy name])

/-- The whole backend loop of `runFull`, in configuration order. -/
def runFullSecondaries (cfg : Config) (fl : FullFlags) (w : World) (fOpts : ForgetOptions) :
    List Event × List Err :=
  (cfg.copyToBackends.flatMap (fun n => (runFullBackend cfg fl w fOpts n).1),
   cfg.copyToBackends.flatMap (fun n => (runFullBackend cfg fl w fOpts n).2))

/-- Outcome of one workflow invocation: the ordered event trace, the
accumulated `errors` list, and the error value returned to the CLI layer. -/
structure RunResult where
  trace : List Event
  errs : List Err
  result : Option Err
  deriving DecidableEq, Repr

/-- The `ForgetOptions` value `runFull` builds once and applies to the
primary and to every backend: the hostname filter is cleared uniformly by
`--all-hosts`. -/
def fullForgetOpts (cfg : Config) (fl : FullFlags) (hostname : String) : ForgetOptions :=
  mkForgetOpts cfg.retention (if fl.allHosts then "" else hostname)

/-- The body of `runFull` once the lock is held and the pre-backup hook has
not failed: all steps run, appending failures to `errors`; the summary fires
the on-success or on-error hook and returns nil or one aggregate error
counting the failed operations. -/
def runFullMain (cfg : Config) (fl : FullFlags) (w : World) (hostname : String) : RunResult :=
  let preT : List Event := if fl.noHooks then [] else [.hookPre true]
  let fOpts := fullForgetOpts cfg fl hostname
  let prim := runFullPrimary cfg fl w fOpts
  let sec := runFullSecondaries cfg fl w fOpts
  let errs := prim.2 ++ sec.2
  if errs.isEmpty then
    ⟨preT ++ prim.1 ++ sec.1 ++ (if fl.noHooks then [] else [.hookOnSuccess]), errs, none⟩
  else
    ⟨preT ++ prim.1 ++ sec.1 ++ (if fl.noHooks then [] else [.hookOnError]), errs,
      some (.aggregate errs.length)⟩

/-- `runFull` from cmd/full.go.  Lock acquisition comes first; a pre-backup
hook failure runs the on-error hook and aborts the whole command with that
error, before any engine invocation. -/
def runFull (cfg : Config) (fl : FullFlags) (w : World) (hostname : String) : RunResult :=
  if !w.lockOk then ⟨[], [], some .lockAcquire⟩
  else if !fl.noHooks && !w.preHookOk then
    ⟨[.hookPre false, .hookOnError], [.preHook], some .preHook⟩
  else runFullMain cfg fl w hostname

/-- Flags of the default (no subcommand) workflow. -/
structure DefaultFlags where
  noBackup : Bool
  noForget : Bool
  noCopy : Bool
  doPrune : Bool
  noPrune : Bool
  doCheck : Bool
  noCheck : Bool
  deep : Bool
  copyAll : Bool
  extraTag : String
  deriving DecidableEq, Repr

/-- The backup section of `runDefaultWorkflow`: a pre-backup hook failure
appends its error, fires the on-error hook, and skips only the backup; a
backup failure runs post-backup (failure status) and on-error; a successful
backup runs post-backup (success status), whose error is discarded. -/
def defaultBackupSection (w : World) : List Event × List Err :=
  if !w.preHookOk then ([.hookPre false, .hookOnError], [.preHook])
  else ([Event.hookPre true] ++ (fullBackupPhase false w).1, (fullBackupPhase false w).2)

/-- One iteration of `runDefaultWorkflow`'s backend loop: an unknown backend
name is skipped with a warning (no error appended); a failed copy appends
its error and skips that backend's maintenance; otherwise forget runs with a
freshly built but identical `ForgetOptions` value, then prune and check only
when their flags ask for them. -/
def defaultBackendStep (cfg : Config) (fl : DefaultFlags) (w : World) (hostname : String)
    (name : String) : List Event × List Err :=
  if !cfg.backendExists name then ([], [])
  else if !w.copyOk name then ([.copy name false], [.copy name])
  else
    let t := Tgt.backend name
    let f := forgetStep w t (mkForgetOpts cfg.retention hostname)
    let p := if fl.doPrune && !fl.noPrune then pruneStep w t else ([], [])
    let c := if (fl.doCheck || fl.deep) && !fl.noCheck then checkStepSimple w t fl.deep
             else ([], [])
    ([.copy name true] ++ f.1 ++ p.1 ++ c.1, f.2 ++ p.2 ++ c.2)

/-- The body of `runDefaultWorkflow` once the lock is held and the probes
passed: the sections run in order, each guarded by its flags, accumulating
errors; the summary returns nil or one aggregate error counting the
failures (no final on-success/on-error hooks in this workflow). -/
def runDefaultMain (cfg : Config) (fl : DefaultFlags) (w : World) (hostname : String) :
    RunResult :=
  let b := if fl.noBackup then ([], []) else defaultBackupSection w
  let f := if fl.noForget then ([], [])
           else forgetStep w .primary (mkForgetOpts cfg.retention hostname)
  let p := if fl.doPrune && !fl.noPrune then pruneStep w .primary else ([], [])
  let c := if (fl.doCheck || fl.deep) && !fl.noCheck then checkStepSimple w .primary fl.deep
           else ([], [])
  let sec :=
    if !fl.noCopy && !cfg.copyToBackends.isEmpty then
      (cfg.copyToBackends.flatMap (fun n => (defaultBackendStep cfg fl w hostname n).1),
       cfg.copyToBackends.flatMap (fun n => (defaultBackendStep cfg fl w hostname n).2))
    else ([], [])
  let errs := b.2 ++ f.2 ++ p.2 ++ c.2 ++ sec.2
  if errs.isEmpty then ⟨b.1 ++ f.1 ++ p.1 ++ c.1 ++ sec.1, errs, none⟩
  else ⟨b.1 ++ f.1 ++ p.1 ++ c.1 ++ sec.1, errs, some (.aggregate errs.length)⟩

/-- `runDefaultWorkflow` from cmd/root.go: lock acquisition, then the
restic-installed and repository-initialized probes, then the main body. -/
def runDefaultWorkflow (cfg : Config) (fl : DefaultFlags) (w : World) (hostname : String) :
    RunResult :=
  if !w.lockOk then ⟨[], [], some .lockAcquire⟩
  else if !w.resticInstalled then ⟨[], [], some .resticMissing⟩
  else if !w.initialized then ⟨[], [], some .notInitialized⟩
  else runDefaultMain cfg fl w hostname

/-- Flags of the explicit `backup` subcommand. -/
structure BackupFlags where
  extraTag : String
  notifySuccess : Bool
  noHooks : Bool
  deriving DecidableEq, Repr

/-- `runBackup` from cmd/backup.go.  Lock, backend selection, installed and
initialized probes; then the pre-backup hook — whose failure fires the
on-error hook and aborts the whole command with that error, never reaching
the engine; then the backup itself, whose failure runs post-backup (failure
status) and on-error and aborts; on success post-backup runs (error only
logged), the on-success hook fires, and nil is returned. -/
def runBackup (cfg : Config) (fl : BackupFlags) (w : World) : List Event × Option Err :=
  if !w.lockOk then ([], some .lockAcquire)
  else if w.activeBackend != "" && w.activeBackend != "primary" &&
      !cfg.backendExists w.activeBackend then
    ([], some (.backendNotFound w.activeBackend))
  else if !w.resticInstalled then ([], some .resticMissing)
  else if !w.initialized then ([], some .notInitialized)
  else if !fl.noHooks && !w.preHookOk then
    ([.hookPre false, .hookOnError], some .preHook)
  else
    ((if fl.noHooks then [] else [Event.hookPre true]) ++ [.backup w.backupOk] ++
       (if fl.noHooks then []
        else if w.backupOk then [.hookPost true w.postHookOk, .hookOnSuccess]
        else [.hookPost false w.postHookOk, .hookOnError]),
     if w.backupOk then none else some .backup)

/-! ## Shared infrastructure lemmas -/

/-- The classification loop, started from any accumulator, appends the
hostname-matching locks to the first component and the rest to the second,
both in their original order. -/
theorem classifyLocks_go (currentHostname : String) (locks : List LockRec)
    (acc : List LockRec × List LockRec) :
    locks.foldl
        (fun acc l =>
          if l.hostname == currentHostname then (acc.1 ++ [l], acc.2)
          else (acc.1, acc.2 ++ [l])) acc =
      (acc.1 ++ locks.filter (fun l => l.hostname == currentHostname),
       acc.2 ++ locks.filter (fun l => !(l.hostname == currentHostname))) := by
  induction locks generalizing acc with
  | nil => simp
  | cons l ls ih =>
    rw [List.foldl_cons]
    cases h : (l.hostname == currentHostname)
    · rw [if_neg (by simp), ih]
      simp [List.filter_cons, h]
    · rw [if_pos rfl, ih]
      simp [List.filter_cons, h]

/-- A trace event that corresponds to one entry of the workflow's
accumulated error list: a failed engine step, a failed copy, or a failed
pre-backup hook.  A failed post-backup hook is by design NOT a failed step
(its error is discarded), and neither are the on-error/on-success hooks. -/
def Event.isFailedStep : Event → Bool
  | .hookPre false => true
  | .backup false => true
  | .forget _ _ false => true
  | .prune _ false => true
  | .check _ _ false => true
  | .copy _ false => true
  | _ => false

/-- Recognizer for the on-error hook event (used to count its firings). -/
def Event.isOnErrorHook : Event → Bool
  | .hookOnError => true
  | _ => false

theorem forgetStep_count (w : World) (t : Tgt) (o : ForgetOptions) :
    (forgetStep w t o).2.length = (forgetStep w t o).1.countP Event.isFailedStep := by
  cases hf : w.forgetOk t <;> simp [forgetStep, hf, Event.isFailedStep]

theorem pruneStep_count (w : World) (t : Tgt) :
    (pruneStep w t).2.length = (pruneStep w t).1.countP Event.isFailedStep := by
  cases hp : w.pruneOk t <;> simp [pruneStep, hp, Event.isFailedStep]

theorem checkStepSimple_count (w : World) (t : Tgt) (rd : Bool) :
    (checkStepSimple w t rd).2.length = (checkStepSimple w t rd).1.countP Event.isFailedStep := by
  cases hc : w.checkOk t <;> simp [checkStepSimple, hc, Event.isFailedStep]

theorem checkStepFull_count (w : World) (t : Tgt) (rd : Bool) :
    (checkStepFull w t rd).2.length = (checkStepFull w t rd).1.countP Event.isFailedStep := by
  cases hc : w.checkOk t <;> cases hr : rd <;> cases ht : w.trackerOk t <;>
    simp [checkStepFull, hc, hr, ht, Event.isFailedStep, List.countP_append, List.countP_cons]

theorem fullBackupPhase_count (noHooks : Bool) (w : World) :
    (fullBackupPhase noHooks w).2.length =
      (fullBackupPhase noHooks w).1.countP Event.isFailedStep := by
  cases hb : w.backupOk <;> cases hn : noHooks <;>
    simp [fullBackupPhase, hb, hn, Event.isFailedStep, List.countP_append, List.countP_cons]

theorem runFullPrimary_count (cfg : Config) (fl : FullFlags) (w : World) (fOpts : ForgetOptions) :
    (runFullPrimary cfg fl w fOpts).2.length =
      (runFullPrimary cfg fl w fOpts).1.countP Event.isFailedStep := by
  simp [runFullPrimary, List.countP_append, List.length_append,
    forgetStep_count, pruneStep_count, checkStepFull_count, fullBackupPhase_count]

/-- The exact event list of one `runFull` backend iteration. -/
theorem runFullBackend_trace (cfg : Config) (fl : FullFlags) (w : World) (fOpts : ForgetOptions)
    (n : String) :
    (runFullBackend cfg fl w fOpts n).1 =
      if w.copyOk n then
        [Event.copy n true,
         Event.forget (.backend n) fOpts (w.forgetOk (.backend n)),
         Event.prune (.backend n) (w.pruneOk (.backend n)),
         Event.check (.backend n) (computeShouldDeep cfg fl.deep w (.backend n))
           (w.checkOk (.backend n))] ++
        (if w.checkOk (.backend n) && computeShouldDeep cfg fl.deep w (.backend n) &&
            w.trackerOk (.backend n) then [Event.record (.backend n)] else [])
      else [Event.copy n false] := by
  cases hc : w.copyOk n <;>
    simp [runFullBackend, forgetStep, pruneStep, checkStepFull, hc]

/-- The exact error list of one `runFull` backend iteration. -/
theorem runFullBackend_errs (cfg : Config) (fl : FullFlags) (w : World) (fOpts : ForgetOptions)
    (n : String) :
    (runFullBackend cfg fl w fOpts n).2 =
      if w.copyOk n then
        (if w.forgetOk (.backend n) then [] else [Err.forget (.backend n)]) ++
        (if w.pruneOk (.backend n) then [] else [Err.prune (.backend n)]) ++
        (if w.checkOk (.backend n) then [] else [Err.check (.backend n)])
      else [Err.copy n] := by
  cases hc : w.copyOk n <;>
    simp [runFullBackend, forgetStep, pruneStep, checkStepFull, hc]

theorem runFullBackend_count (cfg : Config) (fl : FullFlags) (w : World) (fOpts : ForgetOptions)
    (n : String) :
    (runFullBackend cfg fl w fOpts n).2.length =
      (runFullBackend cfg fl w fOpts n).1.countP Event.isFailedStep := by
  rw [runFullBackend_trace, runFullBackend_errs]
  cases hc : w.copyOk n <;> cases hf : w.forgetOk (.backend n) <;>
    cases hp : w.pruneOk (.backend n) <;> cases hk : w.checkOk (.backend n) <;>
    cases hd : computeShouldDeep cfg fl.deep w (.backend n) <;>
    cases ht : w.trackerOk (.backend n) <;>
    simp [hc, hf, hp, hk, hd, ht, Event.isFailedStep, List.countP_append, List.countP_cons]

theorem runFullSecondaries_count_aux (cfg : Config) (fl : FullFlags) (w : World)
    (fOpts : ForgetOptions) (names : List String) :
    (names.flatMap fun n => (runFullBackend cfg fl w fOpts n).2).length =
      (names.flatMap fun n => (runFullBackend cfg fl w fOpts n).1).countP Event.isFailedStep := by
  induction names with
  | nil => simp
  | cons n ns ih =>
    simp [List.flatMap_cons, List.countP_append, List.length_append, ih, runFullBackend_count]

theorem runFullSecondaries_count (cfg : Config) (fl : FullFlags) (w : World)
    (fOpts : ForgetOptions) :
    (runFullSecondaries cfg fl w fOpts).2.length =
      (runFullSecondaries cfg fl w fOpts).1.countP Event.isFailedStep :=
  runFullSecondaries_count_aux cfg fl w fOpts cfg.copyToBackends

theorem runFullMain_count (cfg : Config) (fl : FullFlags) (w : World) (hostname : String) :
    (runFullMain cfg fl w hostname).errs.length =
      (runFullMain cfg fl w hostname).trace.countP Event.isFailedStep := by
  cases hn : fl.noHooks <;>
    (simp only [runFullMain, hn, Bool.false_eq_true, if_false, if_true, reduceIte]
     split <;>
       simp [List.countP_append, List.length_append, Event.isFailedStep,
         runFullPrimary_count, runFullSecondaries_count, List.countP_cons])

theorem runFullMain_result (cfg : Config) (fl : FullFlags) (w : World) (hostname : String) :
    ((runFullMain cfg fl w hostname).result = none ↔ (runFullMain cfg fl w hostname).errs = []) ∧
    ((runFullMain cfg fl w hostname).errs ≠ [] →
      (runFullMain cfg fl w hostname).result =
        some (.aggregate (runFullMain cfg fl w hostname).errs.length)) := by
  unfold runFullMain
  cases hn : fl.noHooks <;>
    (simp only [hn, Bool.false_eq_true, if_false, if_true, reduceIte]
     split <;> simp_all)

/-- The trace of `runFullMain` is the pre-hook prefix, the primary phase,
the backend loop, and a final-hook tail that holds no engine event. -/
theorem runFullMain_trace_decomp (cfg : Config) (fl : FullFlags) (w : World) (hostname : String) :
    ∃ tail,
      (runFullMain cfg fl w hostname).trace =
        (if fl.noHooks then [] else [Event.hookPre true]) ++
          (runFullPrimary cfg fl w (fullForgetOpts cfg fl hostname)).1 ++
          (runFullSecondaries cfg fl w (fullForgetOpts cfg fl hostname)).1 ++ tail ∧
      (tail = [] ∨ tail = [Event.hookOnSuccess] ∨ tail = [Event.hookOnError]) := by
  unfold runFullMain
  cases hn : fl.noHooks <;>
    (simp only [hn, Bool.false_eq_true, if_false, if_true, reduceIte]
     split <;> exact ⟨_, rfl, by simp⟩)

/-- The exact event list of the primary phase of `runFull`. -/
theorem runFullPrimary_trace (cfg : Config) (fl : FullFlags) (w : World) (fOpts : ForgetOptions) :
    (runFullPrimary cfg fl w fOpts).1 =
      [Event.backup w.backupOk] ++
        (if fl.noHooks then []
         else if w.backupOk then [Event.hookPost true w.postHookOk]
         else [Event.hookPost false w.postHookOk, Event.hookOnError]) ++
        [Event.forget .primary fOpts (w.forgetOk .primary),
         Event.prune .primary (w.pruneOk .primary),
         Event.check .primary (computeShouldDeep cfg fl.deep w .primary) (w.checkOk .primary)] ++
        (if w.checkOk .primary && computeShouldDeep cfg fl.deep w .primary && w.trackerOk .primary
         then [Event.record .primary] else []) := by
  simp [runFullPrimary, fullBackupPhase, forgetStep, pruneStep, checkStepFull]

/-- The exact error list of the primary phase of `runFull`. -/
theorem runFullPrimary_errs (cfg : Config) (fl : FullFlags) (w : World) (fOpts : ForgetOptions) :
    (runFullPrimary cfg fl w fOpts).2 =
      (if w.backupOk then [] else [Err.backup]) ++
      (if w.forgetOk .primary then [] else [Err.forget .primary]) ++
      (if w.pruneOk .primary then [] else [Err.prune .primary]) ++
      (if w.checkOk .primary then [] else [Err.check .primary]) := by
  simp [runFullPrimary, fullBackupPhase, forgetStep, pruneStep, checkStepFull]

/-- A list concatenated from per-element pieces is empty when every piece
is. -/
theorem flatMap_eq_nil_of_forall {α β : Type} (l : List α) (f : α → List β)
    (h : ∀ a ∈ l, f a = []) : l.flatMap f = [] := by
  induction l with
  | nil => simp
  | cons a as ih =>
    simp [List.flatMap_cons, h a (by simp), ih (fun x hx => h x (by simp [hx]))]

/-- The exact event list of one `runDefaultWorkflow` backend iteration. -/
theorem defaultBackendStep_trace (cfg : Config) (fl : DefaultFlags) (w : World)
    (hostname : String) (n : String) :
    (defaultBackendStep cfg fl w hostname n).1 =
      if !cfg.backendExists n then []
      else if !w.copyOk n then [Event.copy n false]
      else
        [Event.copy n true,
         Event.forget (.backend n) (mkForgetOpts cfg.retention hostname)
           (w.forgetOk (.backend n))] ++
        (if fl.doPrune && !fl.noPrune then [Event.prune (.backend n) (w.pruneOk (.backend n))]
         else []) ++
        (if (fl.doCheck || fl.deep) && !fl.noCheck then
          [Event.check (.backend n) fl.deep (w.checkOk (.backend n))]
         else []) := by
  cases he : cfg.backendExists n <;> cases hc : w.copyOk n <;>
    cases h3 : (fl.doPrune && !fl.noPrune) <;>
    cases h4 : ((fl.doCheck || fl.deep) && !fl.noCheck) <;>
    simp [defaultBackendStep, forgetStep, pruneStep, checkStepSimple, he, hc, h3, h4]

/-- The exact error list of one `runDefaultWorkflow` backend iteration. -/
theorem defaultBackendStep_errs (cfg : Config) (fl : DefaultFlags) (w : World)
    (hostname : String) (n : String) :
    (defaultBackendStep cfg fl w hostname n).2 =
      if !cfg.backendExists n then []
      else if !w.copyOk n then [Err.copy n]
      else
        (if w.forgetOk (.backend n) then [] else [Err.forget (.backend n)]) ++
        (if fl.doPrune && !fl.noPrune then
          (if w.pruneOk (.backend n) then [] else [Err.prune (.backend n)]) else []) ++
        (if (fl.doCheck || fl.deep) && !fl.noCheck then
          (if w.checkOk (.backend n) then [] else [Err.check (.backend n)]) else []) := by
  cases he : cfg.backendExists n <;> cases hc : w.copyOk n <;>
    cases h3 : (fl.doPrune && !fl.noPrune) <;>
    cases h4 : ((fl.doCheck || fl.deep) && !fl.noCheck) <;>
    simp [defaultBackendStep, forgetStep, pruneStep, checkStepSimple, he, hc, h3, h4]

theorem defaultBackendStep_count (cfg : Config) (fl : DefaultFlags) (w : World)
    (hostname : String) (n : String) :
    (defaultBackendStep cfg fl w hostname n).2.length =
      (defaultBackendStep cfg fl w hostname n).1.countP Event.isFailedStep := by
  rw [defaultBackendStep_trace, defaultBackendStep_errs]
  cases he : cfg.backendExists n <;> cases hc : w.copyOk n <;>
    cases h3 : (fl.doPrune && !fl.noPrune) <;>
    cases h4 : ((fl.doCheck || fl.deep) && !fl.noCheck) <;>
    cases hf : w.forgetOk (.backend n) <;> cases hp : w.pruneOk (.backend n) <;>
    cases hk : w.checkOk (.backend n) <;>
    simp [he, hc, h3, h4, hf, hp, hk, Event.isFailedStep, List.countP_append, List.countP_cons]

/-- The exact event list of the backup section of `runDefaultWorkflow`. -/
theorem defaultBackupSection_trace (w : World) :
    (defaultBackupSection w).1 =
      if !w.preHookOk then [Event.hookPre false, Event.hookOnError]
      else
        [Event.hookPre true, Event.backup w.backupOk] ++
          (if w.backupOk then [Event.hookPost true w.postHookOk]
           else [Event.hookPost false w.postHookOk, Event.hookOnError]) := by
  cases hp : w.preHookOk <;> cases hb : w.backupOk <;>
    simp [defaultBackupSection, fullBackupPhase, hp, hb]

/-- The exact error list of the backup section of `runDefaultWorkflow`. -/
theorem defaultBackupSection_errs (w : World) :
    (defaultBackupSection w).2 =
      if !w.preHookOk then [Err.preHook]
      else if w.backupOk then [] else [Err.backup] := by
  cases hp : w.preHookOk <;> cases hb : w.backupOk <;>
    simp [defaultBackupSection, fullBackupPhase, hp, hb]

theorem defaultBackupSection_count (w : World) :
    (defaultBackupSection w).2.length =
      (defaultBackupSection w).1.countP Event.isFailedStep := by
  rw [defaultBackupSection_trace, defaultBackupSection_errs]
  cases hp : w.preHookOk <;> cases hb : w.backupOk <;>
    simp [hp, hb, Event.isFailedStep, List.countP_append, List.countP_cons]

theorem defaultSecondaries_count_aux (cfg : Config) (fl : DefaultFlags) (w : World)
    (hostname : String) (names : List String) :
    (names.flatMap fun n => (defaultBackendStep cfg fl w hostname n).2).length =
      (names.flatMap fun n => (defaultBackendStep cfg fl w hostname n).1).countP
        Event.isFailedStep := by
  induction names with
  | nil => simp
  | cons n ns ih =>
    simp [List.flatMap_cons, List.countP_append, List.length_append, ih,
      defaultBackendStep_count]

theorem defaultSecondaries_count_sum (cfg : Config) (fl : DefaultFlags) (w : World)
    (hostname : String) (names : List String) :
    (List.map (List.length ∘ fun n => (defaultBackendStep cfg fl w hostname n).2) names).sum =
      List.countP Event.isFailedStep
        (names.flatMap fun n => (defaultBackendStep cfg fl w hostname n).1) := by
  induction names with
  | nil => simp
  | cons n ns ih =>
    simp [List.flatMap_cons, List.countP_append, ih, defaultBackendStep_count]

theorem runDefaultMain_count (cfg : Config) (fl : DefaultFlags) (w : World) (hostname : String) :
    (runDefaultMain cfg fl w hostname).errs.length =
      (runDefaultMain cfg fl w hostname).trace.countP Event.isFailedStep := by
  cases h1 : fl.noBackup <;> cases h2 : fl.noForget <;>
    cases h3 : (fl.doPrune && !fl.noPrune) <;>
    cases h4 : ((fl.doCheck || fl.deep) && !fl.noCheck) <;>
    cases h5 : (!fl.noCopy && !cfg.copyToBackends.isEmpty) <;>
    (simp only [runDefaultMain, h1, h2, h3, h4, h5, Bool.false_eq_true, if_false, if_true,
       reduceIte]
     split <;>
       simp [List.countP_append, List.length_append, Event.isFailedStep,
         defaultBackupSection_count, forgetStep_count, pruneStep_count, checkStepSimple_count,
         defaultSecondaries_count_aux, defaultSecondaries_count_sum, List.countP_cons])

theorem runDefaultMain_result (cfg : Config) (fl : DefaultFlags) (w : World) (hostname : String) :
    ((runDefaultMain cfg fl w hostname).result = none ↔
        (runDefaultMain cfg fl w hostname).errs = []) ∧
    ((runDefaultMain cfg fl w hostname).errs ≠ [] →
      (runDefaultMain cfg fl w hostname).result =
        some (.aggregate (runDefaultMain cfg fl w hostname).errs.length)) := by
  cases h1 : fl.noBackup <;> cases h2 : fl.noForget <;>
    cases h3 : (fl.doPrune && !fl.noPrune) <;>
    cases h4 : ((fl.doCheck || fl.deep) && !fl.noCheck) <;>
    cases h5 : (!fl.noCopy && !cfg.copyToBackends.isEmpty) <;>
    (simp only [runDefaultMain, h1, h2, h3, h4, h5, Bool.false_eq_true, if_false, if_true,
       reduceIte]
     split <;> simp_all)

/-- The trace of `runDefaultMain` decomposes into its five sections. -/
theorem runDefaultMain_trace_decomp (cfg : Config) (fl : DefaultFlags) (w : World)
    (hostname : String) :
    (runDefaultMain cfg fl w hostname).trace =
      (if fl.noBackup then [] else (defaultBackupSection w).1) ++
      (if fl.noForget then []
       else (forgetStep w .primary (mkForgetOpts cfg.retention hostname)).1) ++
      (if fl.doPrune && !fl.noPrune then (pruneStep w .primary).1 else []) ++
      (if (fl.doCheck || fl.deep) && !fl.noCheck then (checkStepSimple w .primary fl.deep).1
       else []) ++
      (if !fl.noCopy && !cfg.copyToBackends.isEmpty then
        cfg.copyToBackends.flatMap (fun n => (defaultBackendStep cfg fl w hostname n).1)
       else []) := by
  cases h1 : fl.noBackup <;> cases h2 : fl.noForget <;>
    cases h3 : (fl.doPrune && !fl.noPrune) <;>
    cases h4 : ((fl.doCheck || fl.deep) && !fl.noCheck) <;>
    cases h5 : (!fl.noCopy && !cfg.copyToBackends.isEmpty) <;>
    (simp only [runDefaultMain, h1, h2, h3, h4, h5, Bool.false_eq_true, if_false, if_true,
       reduceIte]
     split <;> simp)

theorem runFullMain_errs (cfg : Config) (fl : FullFlags) (w : World) (hostname : String) :
    (runFullMain cfg fl w hostname).errs =
      (runFullPrimary cfg fl w (fullForgetOpts cfg fl hostname)).2 ++
      (runFullSecondaries cfg fl w (fullForgetOpts cfg fl hostname)).2 := by
  unfold runFullMain
  simp only [apply_ite RunResult.errs, ite_self]

/-- In the all-steps-succeeded case the `runFull` trace ends with the
on-success hook. -/
theorem runFullMain_success_trace (cfg : Config) (fl : FullFlags) (w : World) (hostname : String)
    (hE : (runFullMain cfg fl w hostname).errs = []) :
    (runFullMain cfg fl w hostname).trace =
      (if fl.noHooks then [] else [Event.hookPre true]) ++
        (runFullPrimary cfg fl w (fullForgetOpts cfg fl hostname)).1 ++
        (runFullSecondaries cfg fl w (fullForgetOpts cfg fl hostname)).1 ++
        (if fl.noHooks then [] else [Event.hookOnSuccess]) := by
  rw [runFullMain_errs] at hE
  simp only [runFullMain]
  rw [if_pos (by simp [hE])]

/-- Any forget event in the primary phase carries the single
`ForgetOptions` value the phase was given. -/
theorem runFullPrimary_forget_opts (cfg : Config) (fl : FullFlags) (w : World)
    (fOpts : ForgetOptions) (t : Tgt) (o : ForgetOptions) (k : Bool)
    (hm : Event.forget t o k ∈ (runFullPrimary cfg fl w fOpts).1) : o = fOpts ∧ t = .primary := by
  rw [runFullPrimary_trace] at hm
  cases hn : fl.noHooks <;> cases hbk : w.backupOk <;>
    cases hr : (w.checkOk .primary && computeShouldDeep cfg fl.deep w .primary &&
      w.trackerOk .primary) <;>
    simp [hn, hbk, hr] at hm <;> simp_all

/-- Any forget event in one backend iteration carries the single
`ForgetOptions` value the loop was given. -/
theorem runFullBackend_forget_opts (cfg : Config) (fl : FullFlags) (w : World)
    (fOpts : ForgetOptions) (n : String) (t : Tgt) (o : ForgetOptions) (k : Bool)
    (hm : Event.forget t o k ∈ (runFullBackend cfg fl w fOpts n).1) : o = fOpts := by
  rw [runFullBackend_trace] at hm
  cases hc : w.copyOk n <;>
    cases hr : (w.checkOk (.backend n) && computeShouldDeep cfg fl.deep w (.backend n) &&
      w.trackerOk (.backend n)) <;>
    simp [hc, hr] at hm <;> simp_all

/-- Any forget event anywhere in the main body of `runFull` carries the one
`ForgetOptions` value built at the top of the function. -/
theorem runFullMain_forget_opts (cfg : Config) (fl : FullFlags) (w : World) (hostname : String)
    (t : Tgt) (o : ForgetOptions) (k : Bool)
    (hm : Event.forget t o k ∈ (runFullMain cfg fl w hostname).trace) :
    o = fullForgetOpts cfg fl hostname := by
  obtain ⟨tail, hEq, hTail⟩ := runFullMain_trace_decomp cfg fl w hostname
  rw [hEq] at hm
  simp only [List.mem_append] at hm
  rcases hm with (((h1 | h2) | h3) | h4)
  · cases hn : fl.noHooks <;> simp [hn] at h1
  · exact (runFullPrimary_forget_opts cfg fl w _ t o k h2).1
  · rw [runFullSecondaries, List.mem_flatMap] at h3
    obtain ⟨n, _, hmem⟩ := h3
    exact runFullBackend_forget_opts cfg fl w _ n t o k hmem
  · rcases hTail with rfl | rfl | rfl <;> simp at h4

/-- A forget, prune or check event addressed at a backend never occurs in
the primary phase. -/
theorem runFullPrimary_no_backend_forget (cfg : Config) (fl : FullFlags) (w : World)
    (fOpts : ForgetOptions) (n : String) (o : ForgetOptions) (k : Bool)
    (hm : Event.forget (Tgt.backend n) o k ∈ (runFullPrimary cfg fl w fOpts).1) : False := by
  have := (runFullPrimary_forget_opts cfg fl w fOpts _ o k hm).2
  simp at this

theorem runFullPrimary_no_backend_prune (cfg : Config) (fl : FullFlags) (w : World)
    (fOpts : ForgetOptions) (n : String) (k : Bool)
    (hm : Event.prune (Tgt.backend n) k ∈ (runFullPrimary cfg fl w fOpts).1) : False := by
  rw [runFullPrimary_trace] at hm
  cases hn : fl.noHooks <;> cases hbk : w.backupOk <;>
    cases hr : (w.checkOk .primary && computeShouldDeep cfg fl.deep w .primary &&
      w.trackerOk .primary) <;>
    simp [hn, hbk, hr] at hm

theorem runFullPrimary_no_backend_check (cfg : Config) (fl : FullFlags) (w : World)
    (fOpts : ForgetOptions) (n : String) (r : Bool) (k : Bool)
    (hm : Event.check (Tgt.backend n) r k ∈ (runFullPrimary cfg fl w fOpts).1) : False := by
  rw [runFullPrimary_trace] at hm
  cases hn : fl.noHooks <;> cases hbk : w.backupOk <;>
    cases hr : (w.checkOk .primary && computeShouldDeep cfg fl.deep w .primary &&
      w.trackerOk .primary) <;>
    simp [hn, hbk, hr] at hm

/-- A forget event for backend `b` inside iteration `n` of the backend loop
forces `b = n` and a successful copy to `n`. -/
theorem runFullBackend_forget_target (cfg : Config) (fl : FullFlags) (w : World)
    (fOpts : ForgetOptions) (n b : String) (o : ForgetOptions) (k : Bool)
    (hm : Event.forget (Tgt.backend b) o k ∈ (runFullBackend cfg fl w fOpts n).1) :
    b = n ∧ w.copyOk n = true := by
  rw [runFullBackend_trace] at hm
  cases hc : w.copyOk n <;>
    cases hr : (w.checkOk (.backend n) && computeShouldDeep cfg fl.deep w (.backend n) &&
      w.trackerOk (.backend n)) <;>
    simp [hc, hr] at hm <;> simp_all

theorem runFullBackend_prune_target (cfg : Config) (fl : FullFlags) (w : World)
    (fOpts : ForgetOptions) (n b : String) (k : Bool)
    (hm : Event.prune (Tgt.backend b) k ∈ (runFullBackend cfg fl w fOpts n).1) :
    b = n ∧ w.copyOk n = true := by
  rw [runFullBackend_trace] at hm
  cases hc : w.copyOk n <;>
    cases hr : (w.checkOk (.backend n) && computeShouldDeep cfg fl.deep w (.backend n) &&
      w.trackerOk (.backend n)) <;>
    simp [hc, hr] at hm <;> simp_all

theorem runFullBackend_check_target (cfg : Config) (fl : FullFlags) (w : World)
    (fOpts : ForgetOptions) (n b : String) (r : Bool) (k : Bool)
    (hm : Event.check (Tgt.backend b) r k ∈ (runFullBackend cfg fl w fOpts n).1) :
    b = n ∧ w.copyOk n = true := by
  rw [runFullBackend_trace] at hm
  cases hc : w.copyOk n <;>
    cases hr : (w.checkOk (.backend n) && computeShouldDeep cfg fl.deep w (.backend n) &&
      w.trackerOk (.backend n)) <;>
    simp [hc, hr] at hm <;> simp_all

/-- A record event in the primary phase implies a successful deep check of
the primary repository. -/
theorem runFullPrimary_record (cfg : Config) (fl : FullFlags) (w : World)
    (fOpts : ForgetOptions) (t : Tgt)
    (hm : Event.record t ∈ (runFullPrimary cfg fl w fOpts).1) :
    t = .primary ∧ w.checkOk .primary = true ∧
      computeShouldDeep cfg fl.deep w .primary = true := by
  rw [runFullPrimary_trace] at hm
  cases hn : fl.noHooks <;> cases hbk : w.backupOk <;>
    cases hk : w.checkOk .primary <;> cases hd : computeShouldDeep cfg fl.deep w .primary <;>
    cases ht : w.trackerOk .primary <;> simp [hn, hbk, hk, hd, ht] at hm <;> simp_all

/-- A record event in backend iteration `n` implies a successful deep check
of that backend (and a successful copy before it). -/
theorem runFullBackend_record (cfg : Config) (fl : FullFlags) (w : World)
    (fOpts : ForgetOptions) (n : String) (t : Tgt)
    (hm : Event.record t ∈ (runFullBackend cfg fl w fOpts n).1) :
    t = .backend n ∧ w.checkOk (.backend n) = true ∧
      computeShouldDeep cfg fl.deep w (.backend n) = true ∧ w.copyOk n = true := by
  rw [runFullBackend_trace] at hm
  cases hc : w.copyOk n <;> cases hk : w.checkOk (.backend n) <;>
    cases hd : computeShouldDeep cfg fl.deep w (.backend n) <;>
    cases ht : w.trackerOk (.backend n) <;> simp [hc, hk, hd, ht] at hm <;> simp_all

/-! ## C1: cross-account S3 rejection in Copy -/

/-- C1: whenever source and destination repositories both carry the `s3:`
prefix and the two access keys are non-empty and different, `Copy` returns
the `CrossAccountS3Error` naming the two repositories and never invokes the
external engine; in every other configuration this pre-flight rejection
does not occur. -/
theorem copy_cross_account_rejection (w : CopyWorld) (opts : CopyOptions) :
    (isCrossAccountS3 opts.fromRepository opts.toRepository
        opts.fromAWSAccessKeyID opts.toAWSAccessKeyID = true →
      copyRun w opts = (false, some (.crossAccountS3 opts.fromRepository opts.toRepository))) ∧
    (isCrossAccountS3 opts.fromRepository opts.toRepository
        opts.fromAWSAccessKeyID opts.toAWSAccessKeyID = false →
      ∀ a b, (copyRun w opts).2 ≠ some (.crossAccountS3 a b)) := by
  constructor
  · intro h
    simp [copyRun, h]
  · intro h a b
    cases hp : (opts.fromPassword != "" && !w.tempFileOk) <;>
      cases he : w.engineOk <;> simp [copyRun, h, hp, he]

/-- C1 witness: a concrete cross-account pair is rejected without engine
invocation, and a concrete same-key pair is not rejected. -/
theorem copy_cross_account_rejection_witness :
    isCrossAccountS3 "s3:bucket-a/repo" "s3:bucket-b/repo" "AKIAAAA" "AKIABBB" = true ∧
    copyRun ⟨true, true⟩
        ⟨"s3:bucket-a/repo", "pw", "AKIAAAA", "s3:bucket-b/repo", "AKIABBB", "host1"⟩ =
      (false, some (.crossAccountS3 "s3:bucket-a/repo" "s3:bucket-b/repo")) :=
  ⟨by decide,
   (copy_cross_account_rejection ⟨true, true⟩
      ⟨"s3:bucket-a/repo", "pw", "AKIAAAA", "s3:bucket-b/repo", "AKIABBB", "host1"⟩).1
     (by decide)⟩

/-! ## C8: hook runner in dry-run mode -/

/-- A filesystem in which every path is a file without any execute bit. -/
def nonExecFS : HookFS :=
  { status := fun _ => .present false, runOk := fun _ => true, runOutput := fun _ => "" }

/-- A filesystem in which every path is missing. -/
def missingFS : HookFS :=
  { status := fun _ => .missing, runOk := fun _ => true, runOutput := fun _ => "out" }

/-- A filesystem in which every path is an executable file whose script
would succeed. -/
def execFS : HookFS :=
  { status := fun _ => .present true, runOk := fun _ => true, runOutput := fun _ => "out" }

/-- C8 counterexample: with dry-run enabled, running a hook whose file
exists but is not executable returns the not-executable error, not the nil
error the claim asserts — the executable-bit check precedes the dry-run
check in `Runner.Run`.  (No subprocess is spawned, as the second component
shows.) -/
theorem dry_run_hook_cex :
    hookRun true nonExecFS "/etc/hooks/pre.sh" = (.notExecutable, false) := by
  decide

/-- C8 amended: with dry-run enabled no subprocess is ever spawned; an
empty or nonexistent path returns empty output and nil error; but a path
that exists without execute permission still returns the not-executable
error (and an unreadable path the access error) even in dry-run mode; an
existing executable hook is not executed — only the simulated branch is
taken, returning empty output and nil error. -/
theorem dry_run_hook_amended (fs : HookFS) (path : String) :
    (hookRun true fs path).2 = false ∧
    (path = "" → hookRun true fs path = (.ok "", false)) ∧
    (path ≠ "" → fs.status path = .missing → hookRun true fs path = (.ok "", false)) ∧
    (path ≠ "" → fs.status path = .statError → hookRun true fs path = (.accessError, false)) ∧
    (path ≠ "" → fs.status path = .present false →
      hookRun true fs path = (.notExecutable, false)) ∧
    (path ≠ "" → fs.status path = .present true → hookRun true fs path = (.ok "", false)) := by
  refine ⟨?_, ?_, ?_, ?_, ?_, ?_⟩
  · by_cases hp : path = ""
    · simp [hookRun, hp]
    · cases h : fs.status path with
      | present e => cases e <;> simp [hookRun, hp, h]
      | _ => simp [hookRun, hp, h]
  · intro hp; simp [hookRun, hp]
  · intro hp h; simp [hookRun, hp, h]
  · intro hp h; simp [hookRun, hp, h]
  · intro hp h; simp [hookRun, hp, h]
  · intro hp h; simp [hookRun, hp, h]

/-- C8 witness: the amended statement applied to concrete filesystems. -/
theorem dry_run_hook_amended_witness :
    (hookRun true execFS "/hook").2 = false ∧
    hookRun true missingFS "/hook" = (.ok "", false) ∧
    hookRun true execFS "/hook" = (.ok "", false) :=
  ⟨(dry_run_hook_amended execFS "/hook").1,
   (dry_run_hook_amended missingFS "/hook").2.2.1 (by decide) rfl,
   (dry_run_hook_amended execFS "/hook").2.2.2.2.2 (by decide) rfl⟩

/-! ## C9: stale-lock classification -/

/-- C9: `VerifyNoStaleLocks` splits the listed locks into the own-host
sublist (hostname equal to the current host, original order) and the
other-host sublist (all remaining entries, original order); `hasOwnLocks`
and `hasOtherLocks` hold exactly when the respective sublist is non-empty;
on the hostname list `{A, A, B}` with current host `A`, the own-host list
has length 2, the other-host list length 1, and `hasOwnLocks` is true.
Other-host locks never carry a failure status — they only populate the
informational sublist and flag. -/
theorem lock_classification (locks : List LockRec) (currentHostname : String) :
    (verifyNoStaleLocks locks currentHostname).ownHostLocks =
        locks.filter (fun l => l.hostname == currentHostname) ∧
    (verifyNoStaleLocks locks currentHostname).otherHostLocks =
        locks.filter (fun l => !(l.hostname == currentHostname)) ∧
    ((verifyNoStaleLocks locks currentHostname).hasOwnLocks = true ↔
        (verifyNoStaleLocks locks currentHostname).ownHostLocks ≠ []) ∧
    ((verifyNoStaleLocks locks currentHostname).hasOtherLocks = true ↔
        (verifyNoStaleLocks locks currentHostname).otherHostLocks ≠ []) ∧
    (verifyNoStaleLocks
        [⟨0, "A", "u", 1⟩, ⟨1, "A", "u", 2⟩, ⟨2, "B", "u", 3⟩] "A").ownHostLocks.length = 2 ∧
    (verifyNoStaleLocks
        [⟨0, "A", "u", 1⟩, ⟨1, "A", "u", 2⟩, ⟨2, "B", "u", 3⟩] "A").otherHostLocks.length = 1 ∧
    (verifyNoStaleLocks
        [⟨0, "A", "u", 1⟩, ⟨1, "A", "u", 2⟩, ⟨2, "B", "u", 3⟩] "A").hasOwnLocks = true := by
  have hgo := classifyLocks_go currentHostname locks ([], [])
  refine ⟨?_, ?_, ?_, ?_, by decide, by decide, by decide⟩ <;>
    simp only [verifyNoStaleLocks, classifyLocks, hgo] <;>
    simp [List.length_pos]

/-! ## C10: latest snapshot on an empty list -/

/-- C10: when the engine reports an empty snapshot list,
`GetLatestSnapshot` returns a nil snapshot together with a nil error — the
absence of any snapshot is `(nil, nil)`, not an error. -/
theorem latest_snapshot_empty_is_nil_nil :
    getLatestSnapshot (Except.ok []) = Except.ok none := rfl

/-! ## Concrete configurations and worlds used by the witnesses -/

/-- A world in which every external effect succeeds. -/
def wAll : World :=
  { lockOk := true, resticInstalled := true, initialized := true, activeBackend := ""
    preHookOk := true, postHookOk := true, backupOk := true
    forgetOk := fun _ => true, pruneOk := fun _ => true, checkOk := fun _ => true
    copyOk := fun _ => true, trackerOk := fun _ => true, shouldDeep := fun _ => true }

/-- All effects succeed except the pre-backup hook. -/
def wPreFail : World := { wAll with preHookOk := false }

/-- All effects succeed except the post-backup hook. -/
def wPostFail : World := { wAll with postHookOk := false }

/-- All effects succeed except every forget invocation. -/
def wForgetFail : World := { wAll with forgetOk := fun _ => false }

/-- All effects succeed except the copy to backend `b2`. -/
def wCopyFailB2 : World := { wAll with copyOk := fun n => !(n == "b2") }

/-- A configuration with one secondary backend. -/
def cfg1 : Config :=
  { retention := ⟨"7d", 0, 7, 4, 12, 2⟩, copyToBackends := ["b1"], deepCheckIntervalDays := 1
    backendExists := fun _ => true }

/-- A configuration with three secondary backends. -/
def cfg3 : Config := { cfg1 with copyToBackends := ["b1", "b2", "b3"] }

/-- Default-valued flags of the `full` subcommand. -/
def ffl1 : FullFlags := ⟨"", false, false, false⟩

/-- Default-valued flags of the default workflow. -/
def dfl1 : DefaultFlags := ⟨false, false, false, false, false, false, false, false, false, ""⟩

/-- Default-valued flags of the `backup` subcommand. -/
def bfl1 : BackupFlags := ⟨"", false, false⟩

/-! ## C4: retention-policy identity across targets -/

/-- C4: within a single `runFull` invocation every forget invocation — on
the primary and on every secondary — carries the same `ForgetOptions`
value, namely the one built once from the configured retention fields and
the (possibly `--all-hosts`-cleared) hostname filter; no per-secondary
policy ever appears. -/
theorem retention_policy_identity (cfg : Config) (fl : FullFlags) (w : World) (hostname : String)
    (t₁ : Tgt) (o₁ : ForgetOptions) (k₁ : Bool) (t₂ : Tgt) (o₂ : ForgetOptions) (k₂ : Bool)
    (h₁ : Event.forget t₁ o₁ k₁ ∈ (runFull cfg fl w hostname).trace)
    (h₂ : Event.forget t₂ o₂ k₂ ∈ (runFull cfg fl w hostname).trace) :
    o₁ = o₂ ∧ o₁ = fullForgetOpts cfg fl hostname := by
  cases hl : w.lockOk
  · simp [runFull, hl] at h₁
  · cases hp : (!fl.noHooks && !w.preHookOk)
    · rw [show runFull cfg fl w hostname = runFullMain cfg fl w hostname by
        simp [runFull, hl, hp]] at h₁ h₂
      have e₁ := runFullMain_forget_opts cfg fl w hostname t₁ o₁ k₁ h₁
      have e₂ := runFullMain_forget_opts cfg fl w hostname t₂ o₂ k₂ h₂
      exact ⟨e₁.trans e₂.symm, e₁⟩
    · simp [runFull, hl, hp] at h₁

/-- C4 witness: in a concrete all-success run with one backend, the primary
and backend forget events both appear and both carry the single
`fullForgetOpts` value. -/
theorem retention_policy_identity_witness :
    Event.forget .primary (fullForgetOpts cfg1 ffl1 "hostA") true ∈
      (runFull cfg1 ffl1 wAll "hostA").trace ∧
    Event.forget (.backend "b1") (fullForgetOpts cfg1 ffl1 "hostA") true ∈
      (runFull cfg1 ffl1 wAll "hostA").trace ∧
    (fullForgetOpts cfg1 ffl1 "hostA" = fullForgetOpts cfg1 ffl1 "hostA" ∧
     fullForgetOpts cfg1 ffl1 "hostA" = fullForgetOpts cfg1 ffl1 "hostA") :=
  ⟨by decide, by decide,
   retention_policy_identity cfg1 ffl1 wAll "hostA"
     .primary (fullForgetOpts cfg1 ffl1 "hostA") true
     (.backend "b1") (fullForgetOpts cfg1 ffl1 "hostA") true
     (by decide) (by decide)⟩

/-! ## C6: aggregate verdict -/

/-- C6: both workflows return nil exactly when the accumulated ordered
error list is empty; otherwise they return the single aggregate error whose
count is the length of that list; the list's length always equals the
number of failed steps recorded in the trace; and no step failure is
re-raised mid-workflow — the one exception being `runFull`'s pre-backup
hook failure, excluded here by the hook hypothesis exactly as the claim
excludes it.  (The hypotheses on the lock and the startup probes restrict
the statement to runs in which the workflow body is reached at all.) -/
theorem aggregate_verdict (cfg : Config) (ffl : FullFlags) (dfl : DefaultFlags) (w : World)
    (hostname : String) :
    (w.lockOk = true →
      ((runFull cfg ffl w hostname).result = none ↔ (runFull cfg ffl w hostname).errs = [])) ∧
    (w.lockOk = true → (ffl.noHooks = true ∨ w.preHookOk = true) →
      (runFull cfg ffl w hostname).errs ≠ [] →
      (runFull cfg ffl w hostname).result =
        some (.aggregate (runFull cfg ffl w hostname).errs.length)) ∧
    ((runFull cfg ffl w hostname).errs.length =
      (runFull cfg ffl w hostname).trace.countP Event.isFailedStep) ∧
    (w.lockOk = true → w.resticInstalled = true → w.initialized = true →
      ((runDefaultWorkflow cfg dfl w hostname).result = none ↔
        (runDefaultWorkflow cfg dfl w hostname).errs = [])) ∧
    (w.lockOk = true → w.resticInstalled = true → w.initialized = true →
      (runDefaultWorkflow cfg dfl w hostname).errs ≠ [] →
      (runDefaultWorkflow cfg dfl w hostname).result =
        some (.aggregate (runDefaultWorkflow cfg dfl w hostname).errs.length)) ∧
    ((runDefaultWorkflow cfg dfl w hostname).errs.length =
      (runDefaultWorkflow cfg dfl w hostname).trace.countP Event.isFailedStep) := by
  refine ⟨?_, ?_, ?_, ?_, ?_, ?_⟩
  · intro hl
    cases hp : (!ffl.noHooks && !w.preHookOk)
    · rw [show runFull cfg ffl w hostname = runFullMain cfg ffl w hostname by
        simp [runFull, hl, hp]]
      exact (runFullMain_result cfg ffl w hostname).1
    · simp [runFull, hl, hp]
  · intro hl hcond
    have hp : (!ffl.noHooks && !w.preHookOk) = false := by
      rcases hcond with h | h <;> simp [h]
    rw [show runFull cfg ffl w hostname = runFullMain cfg ffl w hostname by
      simp [runFull, hl, hp]]
    exact (runFullMain_result cfg ffl w hostname).2
  · cases hl : w.lockOk
    · simp [runFull, hl]
    · cases hp : (!ffl.noHooks && !w.preHookOk)
      · rw [show runFull cfg ffl w hostname = runFullMain cfg ffl w hostname by
          simp [runFull, hl, hp]]
        exact runFullMain_count cfg ffl w hostname
      · simp [runFull, hl, hp, Event.isFailedStep, List.countP_cons]
  · intro hl hr hi
    rw [show runDefaultWorkflow cfg dfl w hostname = runDefaultMain cfg dfl w hostname by
      simp [runDefaultWorkflow, hl, hr, hi]]
    exact (runDefaultMain_result cfg dfl w hostname).1
  · intro hl hr hi
    rw [show runDefaultWorkflow cfg dfl w hostname = runDefaultMain cfg dfl w hostname by
      simp [runDefaultWorkflow, hl, hr, hi]]
    exact (runDefaultMain_result cfg dfl w hostname).2
  · cases hl : w.lockOk
    · simp [runDefaultWorkflow, hl]
    · cases hr : w.resticInstalled
      · simp [runDefaultWorkflow, hl, hr]
      · cases hi : w.initialized
        · simp [runDefaultWorkflow, hl, hr, hi]
        · rw [show runDefaultWorkflow cfg dfl w hostname = runDefaultMain cfg dfl w hostname by
            simp [runDefaultWorkflow, hl, hr, hi]]
          exact runDefaultMain_count cfg dfl w hostname

/-- C6 witness: a concrete run in which every forget fails, exercising the
aggregate verdict and the failed-step count in both workflows. -/
theorem aggregate_verdict_witness :
    ((runFull cfg1 ffl1 wForgetFail "hostA").result = none ↔
      (runFull cfg1 ffl1 wForgetFail "hostA").errs = []) ∧
    (runFull cfg1 ffl1 wForgetFail "hostA").result =
      some (.aggregate (runFull cfg1 ffl1 wForgetFail "hostA").errs.length) ∧
    (runFull cfg1 ffl1 wForgetFail "hostA").errs.length =
      (runFull cfg1 ffl1 wForgetFail "hostA").trace.countP Event.isFailedStep ∧
    ((runDefaultWorkflow cfg1 dfl1 wForgetFail "hostA").result = none ↔
      (runDefaultWorkflow cfg1 dfl1 wForgetFail "hostA").errs = []) ∧
    (runDefaultWorkflow cfg1 dfl1 wForgetFail "hostA").result =
      some (.aggregate (runDefaultWorkflow cfg1 dfl1 wForgetFail "hostA").errs.length) ∧
    (runDefaultWorkflow cfg1 dfl1 wForgetFail "hostA").errs.length =
      (runDefaultWorkflow cfg1 dfl1 wForgetFail "hostA").trace.countP Event.isFailedStep :=
  ⟨(aggregate_verdict cfg1 ffl1 dfl1 wForgetFail "hostA").1 (by decide),
   (aggregate_verdict cfg1 ffl1 dfl1 wForgetFail "hostA").2.1 (by decide)
     (Or.inr (by decide)) (by decide),
   (aggregate_verdict cfg1 ffl1 dfl1 wForgetFail "hostA").2.2.1,
   (aggregate_verdict cfg1 ffl1 dfl1 wForgetFail "hostA").2.2.2.1 (by decide) (by decide)
     (by decide),
   (aggregate_verdict cfg1 ffl1 dfl1 wForgetFail "hostA").2.2.2.2.1 (by decide) (by decide)
     (by decide) (by decide),
   (aggregate_verdict cfg1 ffl1 dfl1 wForgetFail "hostA").2.2.2.2.2⟩

/-! ## C7: deep-check interval -/

/-- C7 counterexample: with a configured interval of M = 7 days and a
persisted last check exactly N = 7 days in the past (N ≥ M), the code does
NOT promote to a deep check: `time.Now().After(deadline)` is strict, so at
N = M the check stays metadata-only, contradicting the claimed "iff
N ≥ M". -/
theorem deep_check_boundary_cex :
    shouldRunDeepCheck 7 (some 0) (7 * nsPerDay) = false := by decide

/-- A record (timestamp-persisting) event in a `runFull` trace only ever
follows a successful deep check of the same repository, in the same
trace. -/
theorem record_implies_deep_check_success (cfg : Config) (fl : FullFlags) (w : World)
    (hostname : String) (t : Tgt)
    (hm : Event.record t ∈ (runFull cfg fl w hostname).trace) :
    Event.check t true true ∈ (runFull cfg fl w hostname).trace := by
  cases hl : w.lockOk
  · simp [runFull, hl] at hm
  · cases hp : (!fl.noHooks && !w.preHookOk)
    · rw [show runFull cfg fl w hostname = runFullMain cfg fl w hostname by
        simp [runFull, hl, hp]] at hm ⊢
      obtain ⟨tail, hEq, hTail⟩ := runFullMain_trace_decomp cfg fl w hostname
      rw [hEq] at hm ⊢
      simp only [List.mem_append] at hm ⊢
      rcases hm with (((h1 | h2) | h3) | h4)
      · cases hn : fl.noHooks <;> simp [hn] at h1
      · obtain ⟨rfl, hk, hd⟩ := runFullPrimary_record cfg fl w _ t h2
        refine Or.inl (Or.inl (Or.inr ?_))
        rw [runFullPrimary_trace]
        simp [hk, hd]
      · rw [runFullSecondaries, List.mem_flatMap] at h3
        obtain ⟨n, hn, hmem⟩ := h3
        obtain ⟨rfl, hk, hd, hc⟩ := runFullBackend_record cfg fl w _ n t hmem
        refine Or.inl (Or.inr ?_)
        rw [runFullSecondaries, List.mem_flatMap]
        refine ⟨n, hn, ?_⟩
        rw [runFullBackend_trace]
        simp [hc, hk, hd]
      · rcases hTail with rfl | rfl | rfl <;> simp at h4
    · simp [runFull, hl, hp] at hm

/-- C7 amended: a check is promoted to a full-data-read deep check iff the
elapsed time since the persisted last check is STRICTLY greater than the
configured interval of M days (N > M; at exactly N = M no deep check runs,
because the comparison is `time.Now().After(deadline)`); a missing or
unreadable persisted state always triggers deep mode; a timestamp equal to
the current instant never does (so a check immediately after a successful
deep check does not re-trigger deep mode); and the `runFull` workflow
records the timestamp only after a successful deep check. -/
theorem deep_check_interval_amended (intervalDays lastT now : Int) (hM : 0 < intervalDays)
    (cfg : Config) (fl : FullFlags) (w : World) (hostname : String) (t : Tgt)
    (hrec : Event.record t ∈ (runFull cfg fl w hostname).trace) :
    shouldRunDeepCheck intervalDays none now = true ∧
    (shouldRunDeepCheck intervalDays (some lastT) now = true ↔
      lastT + intervalDays * nsPerDay < now) ∧
    shouldRunDeepCheck intervalDays (some now) now = false ∧
    Event.check t true true ∈ (runFull cfg fl w hostname).trace := by
  refine ⟨?_, ?_, ?_, record_implies_deep_check_success cfg fl w hostname t hrec⟩
  · simp [shouldRunDeepCheck, not_le.mpr hM]
  · simp [shouldRunDeepCheck, not_le.mpr hM]
  · have h1 : (0:Int) < intervalDays * nsPerDay :=
      mul_pos hM (by norm_num [nsPerDay])
    simp only [shouldRunDeepCheck, if_neg (not_le.mpr hM)]
    simp
    omega

/-- C7 witness: the amended statement at interval 7 days, last check at the
epoch, now 8 days later, against a concrete `runFull` trace that records a
deep check of the primary repository. -/
theorem deep_check_interval_amended_witness :
    (0:Int) < 7 ∧
    Event.record .primary ∈ (runFull cfg1 ffl1 wAll "hostA").trace ∧
    (shouldRunDeepCheck 7 none (8 * nsPerDay) = true ∧
     (shouldRunDeepCheck 7 (some 0) (8 * nsPerDay) = true ↔ 0 + 7 * nsPerDay < 8 * nsPerDay) ∧
     shouldRunDeepCheck 7 (some (8 * nsPerDay)) (8 * nsPerDay) = false ∧
     Event.check .primary true true ∈ (runFull cfg1 ffl1 wAll "hostA").trace) :=
  ⟨by decide, by decide,
   deep_check_interval_amended 7 0 (8 * nsPerDay) (by decide) cfg1 ffl1 wAll "hostA" .primary
     (by decide)⟩

/-! ## C3: post-backup hook failure isolation -/

/-- C3: when the backup succeeds and only the post-backup hook fails, the
hook failure never reaches the error list: the explicit backup subcommand
still returns nil and fires the on-success hook (after running the failing
post-backup hook), and the full workflow still ends with an empty error
list, a nil result, and the on-success hook. -/
theorem post_backup_failure_isolation (cfg : Config) (bfl : BackupFlags) (ffl : FullFlags)
    (w : World) (hostname : String)
    (hbnh : bfl.noHooks = false) (hfnh : ffl.noHooks = false)
    (hl : w.lockOk = true) (hri : w.resticInstalled = true) (hin : w.initialized = true)
    (ha : w.activeBackend = "") (hpre : w.preHookOk = true) (hbk : w.backupOk = true)
    (hpost : w.postHookOk = false)
    (hf : ∀ t, w.forgetOk t = true) (hp : ∀ t, w.pruneOk t = true)
    (hk : ∀ t, w.checkOk t = true) (hcp : ∀ n, w.copyOk n = true) :
    (runBackup cfg bfl w).2 = none ∧
    Event.hookPost true false ∈ (runBackup cfg bfl w).1 ∧
    Event.hookOnSuccess ∈ (runBackup cfg bfl w).1 ∧
    (runFull cfg ffl w hostname).errs = [] ∧
    (runFull cfg ffl w hostname).result = none ∧
    Event.hookPost true false ∈ (runFull cfg ffl w hostname).trace ∧
    Event.hookOnSuccess ∈ (runFull cfg ffl w hostname).trace := by
  have hrb : runBackup cfg bfl w =
      ([Event.hookPre true, Event.backup true, Event.hookPost true false, Event.hookOnSuccess],
       none) := by
    simp [runBackup, hl, hri, hin, ha, hbnh, hpre, hbk, hpost]
  have hrf : runFull cfg ffl w hostname = runFullMain cfg ffl w hostname := by
    simp [runFull, hl, hpre]
  have hpe : (runFullPrimary cfg ffl w (fullForgetOpts cfg ffl hostname)).2 = [] := by
    rw [runFullPrimary_errs]
    simp [hbk, hf, hp, hk]
  have hse : (runFullSecondaries cfg ffl w (fullForgetOpts cfg ffl hostname)).2 = [] := by
    unfold runFullSecondaries
    exact flatMap_eq_nil_of_forall _ _
      (fun n _ => by rw [runFullBackend_errs]; simp [hcp, hf, hp, hk])
  have herr : (runFullMain cfg ffl w hostname).errs = [] := by
    rw [runFullMain_errs, hpe, hse]
    rfl
  have htr := runFullMain_success_trace cfg ffl w hostname herr
  refine ⟨by rw [hrb], by rw [hrb]; simp, by rw [hrb]; simp, ?_, ?_, ?_, ?_⟩
  · rw [hrf]
    exact herr
  · rw [hrf]
    exact (runFullMain_result cfg ffl w hostname).1.mpr herr
  · rw [hrf, htr, runFullPrimary_trace]
    simp [hfnh, hbk, hpost]
  · rw [hrf, htr]
    simp [hfnh]

/-- C3 witness: the isolation statement at a concrete all-success world
whose post-backup hook fails. -/
theorem post_backup_failure_isolation_witness :
    (runBackup cfg1 bfl1 wPostFail).2 = none ∧
    Event.hookOnSuccess ∈ (runBackup cfg1 bfl1 wPostFail).1 ∧
    (runFull cfg1 ffl1 wPostFail "hostA").result = none ∧
    Event.hookOnSuccess ∈ (runFull cfg1 ffl1 wPostFail "hostA").trace := by
  have thm := post_backup_failure_isolation cfg1 bfl1 ffl1 wPostFail "hostA"
    (by decide) (by decide) (by decide) (by decide) (by decide) (by decide) (by decide)
    (by decide) (by decide) (fun _ => rfl) (fun _ => rfl) (fun _ => rfl) (fun _ => rfl)
  exact ⟨thm.1, thm.2.2.1, thm.2.2.2.2.1, thm.2.2.2.2.2.2⟩

/-! ## C5: per-secondary independence -/

/-- C5: in a `runFull` invocation, a failed copy to secondary `b` skips
exactly `b`'s forget/prune/check chain: the copy failure itself is recorded
and no forget, prune or check event for `b` ever appears; every other
secondary whose copy succeeds still receives its copy, forget, prune and
check invocations; and the primary phase is unaffected by the copy oracle
entirely. -/
theorem secondary_independence (cfg : Config) (fl : FullFlags) (w : World) (hostname : String)
    (b : String) (hl : w.lockOk = true) (hpre : fl.noHooks = true ∨ w.preHookOk = true)
    (hb : b ∈ cfg.copyToBackends) (hfail : w.copyOk b = false) :
    Event.copy b false ∈ (runFull cfg fl w hostname).trace ∧
    (∀ o k, Event.forget (Tgt.backend b) o k ∉ (runFull cfg fl w hostname).trace) ∧
    (∀ k, Event.prune (Tgt.backend b) k ∉ (runFull cfg fl w hostname).trace) ∧
    (∀ r k, Event.check (Tgt.backend b) r k ∉ (runFull cfg fl w hostname).trace) ∧
    (∀ b2, b2 ∈ cfg.copyToBackends → w.copyOk b2 = true →
      Event.copy b2 true ∈ (runFull cfg fl w hostname).trace ∧
      Event.forget (Tgt.backend b2) (fullForgetOpts cfg fl hostname)
          (w.forgetOk (Tgt.backend b2)) ∈ (runFull cfg fl w hostname).trace ∧
      Event.prune (Tgt.backend b2) (w.pruneOk (Tgt.backend b2)) ∈
        (runFull cfg fl w hostname).trace ∧
      Event.check (Tgt.backend b2) (computeShouldDeep cfg fl.deep w (Tgt.backend b2))
          (w.checkOk (Tgt.backend b2)) ∈ (runFull cfg fl w hostname).trace) ∧
    (∀ c2 : String → Bool,
      runFullPrimary cfg fl { w with copyOk := c2 } (fullForgetOpts cfg fl hostname) =
        runFullPrimary cfg fl w (fullForgetOpts cfg fl hostname)) := by
  have hp : (!fl.noHooks && !w.preHookOk) = false := by
    rcases hpre with h | h <;> simp [h]
  have hrf : runFull cfg fl w hostname = runFullMain cfg fl w hostname := by
    simp [runFull, hl, hp]
  obtain ⟨tail, hEq, hTail⟩ := runFullMain_trace_decomp cfg fl w hostname
  have hsec : ∀ e, e ∈ (runFullSecondaries cfg fl w (fullForgetOpts cfg fl hostname)).1 →
      e ∈ (runFull cfg fl w hostname).trace := by
    intro e he
    rw [hrf, hEq]
    simp [List.mem_append, he]
  refine ⟨?_, ?_, ?_, ?_, ?_, fun c2 => rfl⟩
  · apply hsec
    rw [runFullSecondaries, List.mem_flatMap]
    exact ⟨b, hb, by rw [runFullBackend_trace]; simp [hfail]⟩
  · intro o k hm
    rw [hrf, hEq] at hm
    simp only [List.mem_append] at hm
    rcases hm with (((h1 | h2) | h3) | h4)
    · cases hn : fl.noHooks <;> simp [hn] at h1
    · exact runFullPrimary_no_backend_forget cfg fl w _ b o k h2
    · rw [runFullSecondaries, List.mem_flatMap] at h3
      obtain ⟨n, _, hmem⟩ := h3
      obtain ⟨rfl, hc⟩ := runFullBackend_forget_target cfg fl w _ n b o k hmem
      rw [hfail] at hc
      exact Bool.false_ne_true hc
    · rcases hTail with rfl | rfl | rfl <;> simp at h4
  · intro k hm
    rw [hrf, hEq] at hm
    simp only [List.mem_append] at hm
    rcases hm with (((h1 | h2) | h3) | h4)
    · cases hn : fl.noHooks <;> simp [hn] at h1
    · exact runFullPrimary_no_backend_prune cfg fl w _ b k h2
    · rw [runFullSecondaries, List.mem_flatMap] at h3
      obtain ⟨n, _, hmem⟩ := h3
      obtain ⟨rfl, hc⟩ := runFullBackend_prune_target cfg fl w _ n b k hmem
      rw [hfail] at hc
      exact Bool.false_ne_true hc
    · rcases hTail with rfl | rfl | rfl <;> simp at h4
  · intro r k hm
    rw [hrf, hEq] at hm
    simp only [List.mem_append] at hm
    rcases hm with (((h1 | h2) | h3) | h4)
    · cases hn : fl.noHooks <;> simp [hn] at h1
    · exact runFullPrimary_no_backend_check cfg fl w _ b r k h2
    · rw [runFullSecondaries, List.mem_flatMap] at h3
      obtain ⟨n, _, hmem⟩ := h3
      obtain ⟨rfl, hc⟩ := runFullBackend_check_target cfg fl w _ n b r k hmem
      rw [hfail] at hc
      exact Bool.false_ne_true hc
    · rcases hTail with rfl | rfl | rfl <;> simp at h4
  · intro b2 hb2 hc2
    refine ⟨?_, ?_, ?_, ?_⟩ <;>
      · apply hsec
        rw [runFullSecondaries, List.mem_flatMap]
        exact ⟨b2, hb2, by rw [runFullBackend_trace]; simp [hc2]⟩

/-- C5 witness: three backends, copy to the second fails — the second's
chain is skipped, the first and third still receive theirs. -/
theorem secondary_independence_witness :
    Event.copy "b2" false ∈ (runFull cfg3 ffl1 wCopyFailB2 "hostA").trace ∧
    Event.forget (Tgt.backend "b2") (fullForgetOpts cfg3 ffl1 "hostA") true ∉
      (runFull cfg3 ffl1 wCopyFailB2 "hostA").trace ∧
    Event.prune (Tgt.backend "b2") true ∉ (runFull cfg3 ffl1 wCopyFailB2 "hostA").trace ∧
    Event.copy "b1" true ∈ (runFull cfg3 ffl1 wCopyFailB2 "hostA").trace ∧
    Event.forget (Tgt.backend "b3") (fullForgetOpts cfg3 ffl1 "hostA")
      (wCopyFailB2.forgetOk (Tgt.backend "b3")) ∈
      (runFull cfg3 ffl1 wCopyFailB2 "hostA").trace := by
  have thm := secondary_independence cfg3 ffl1 wCopyFailB2 "hostA" "b2"
    (by decide) (Or.inr (by decide)) (by decide) (by decide)
  exact ⟨thm.1, thm.2.1 (fullForgetOpts cfg3 ffl1 "hostA") true, thm.2.2.1 true,
    (thm.2.2.2.2.1 "b1" (by decide) (by decide)).1,
    (thm.2.2.2.2.1 "b3" (by decide) (by decide)).2.1⟩

/-! ## C2: pre-backup hook failure gate -/

/-- An event produced by the default workflow's backend loop: a copy or a
backend-addressed forget/prune/check. -/
def Event.isBackendLoopEvent : Event → Bool
  | .copy _ _ => true
  | .forget (.backend _) _ _ => true
  | .prune (.backend _) _ => true
  | .check (.backend _) _ _ => true
  | _ => false

theorem defaultBackendStep_shape (cfg : Config) (fl : DefaultFlags) (w : World)
    (hostname n : String) :
    (defaultBackendStep cfg fl w hostname n).1.all Event.isBackendLoopEvent = true := by
  rw [defaultBackendStep_trace]
  cases he : cfg.backendExists n <;> cases hc : w.copyOk n <;>
    cases h3 : (fl.doPrune && !fl.noPrune) <;>
    cases h4 : ((fl.doCheck || fl.deep) && !fl.noCheck) <;>
    simp [he, hc, h3, h4, Event.isBackendLoopEvent]

theorem defaultSecondaries_shape (cfg : Config) (fl : DefaultFlags) (w : World)
    (hostname : String) (names : List String) (e : Event)
    (hm : e ∈ names.flatMap fun n => (defaultBackendStep cfg fl w hostname n).1) :
    e.isBackendLoopEvent = true := by
  rw [List.mem_flatMap] at hm
  obtain ⟨n, _, hmem⟩ := hm
  exact List.all_eq_true.mp (defaultBackendStep_shape cfg fl w hostname n) _ hmem

theorem countP_flatMap_zero {α β : Type} (p : β → Bool) (f : α → List β) (l : List α)
    (h : ∀ a ∈ l, (f a).countP p = 0) : (l.flatMap f).countP p = 0 := by
  induction l with
  | nil => simp
  | cons a as ih =>
    simp [List.flatMap_cons, List.countP_append, h a (by simp),
      ih (fun x hx => h x (by simp [hx]))]

theorem defaultBackendStep_onerror_count (cfg : Config) (fl : DefaultFlags) (w : World)
    (hostname n : String) :
    (defaultBackendStep cfg fl w hostname n).1.countP Event.isOnErrorHook = 0 := by
  rw [defaultBackendStep_trace]
  cases he : cfg.backendExists n <;> cases hc : w.copyOk n <;>
    cases h3 : (fl.doPrune && !fl.noPrune) <;>
    cases h4 : ((fl.doCheck || fl.deep) && !fl.noCheck) <;>
    simp [he, hc, h3, h4, Event.isOnErrorHook, List.countP_append, List.countP_cons]

/-- C2: whenever the pre-backup hook fails, the engine's backup is never
invoked, the on-error hook fires exactly once, and the post-backup hook
never fires; the explicit backup subcommand aborts the whole command with
the hook's error, while the default workflow continues to the independent
forget and copy steps. -/
theorem pre_backup_failure_gate (cfg : Config) (bfl : BackupFlags) (dfl : DefaultFlags)
    (w : World) (hostname : String)
    (hl : w.lockOk = true) (hri : w.resticInstalled = true) (hin : w.initialized = true)
    (ha : w.activeBackend = "") (hbnh : bfl.noHooks = false) (hpre : w.preHookOk = false)
    (hnb : dfl.noBackup = false) (hnf : dfl.noForget = false) (hnc : dfl.noCopy = false) :
    runBackup cfg bfl w = ([Event.hookPre false, Event.hookOnError], some .preHook) ∧
    (∀ k, Event.backup k ∉ (runDefaultWorkflow cfg dfl w hostname).trace) ∧
    (∀ s k, Event.hookPost s k ∉ (runDefaultWorkflow cfg dfl w hostname).trace) ∧
    (runDefaultWorkflow cfg dfl w hostname).trace.countP Event.isOnErrorHook = 1 ∧
    Event.forget .primary (mkForgetOpts cfg.retention hostname) (w.forgetOk .primary) ∈
      (runDefaultWorkflow cfg dfl w hostname).trace ∧
    (∀ n, n ∈ cfg.copyToBackends → cfg.backendExists n = true →
      Event.copy n (w.copyOk n) ∈ (runDefaultWorkflow cfg dfl w hostname).trace) := by
  have hrd : runDefaultWorkflow cfg dfl w hostname = runDefaultMain cfg dfl w hostname := by
    simp [runDefaultWorkflow, hl, hri, hin]
  have htr : (runDefaultMain cfg dfl w hostname).trace =
      [Event.hookPre false, Event.hookOnError] ++
      [Event.forget .primary (mkForgetOpts cfg.retention hostname) (w.forgetOk .primary)] ++
      (if dfl.doPrune && !dfl.noPrune then [Event.prune .primary (w.pruneOk .primary)]
       else []) ++
      (if (dfl.doCheck || dfl.deep) && !dfl.noCheck then
        [Event.check .primary dfl.deep (w.checkOk .primary)] else []) ++
      (if !cfg.copyToBackends.isEmpty then
        cfg.copyToBackends.flatMap (fun n => (defaultBackendStep cfg dfl w hostname n).1)
       else []) := by
    rw [runDefaultMain_trace_decomp, defaultBackupSection_trace]
    simp [hnb, hnf, hnc, hpre, forgetStep, pruneStep, checkStepSimple]
  refine ⟨?_, ?_, ?_, ?_, ?_, ?_⟩
  · simp [runBackup, hl, hri, hin, ha, hbnh, hpre]
  · intro k hm
    rw [hrd, htr] at hm
    simp only [List.mem_append] at hm
    rcases hm with ((((h1 | h2) | h3) | h4) | h5)
    · simp at h1
    · simp at h2
    · cases h3f : (dfl.doPrune && !dfl.noPrune) <;> simp [h3f] at h3
    · cases h4f : ((dfl.doCheck || dfl.deep) && !dfl.noCheck) <;> simp [h4f] at h4
    · cases h5f : cfg.copyToBackends.isEmpty
      · simp only [h5f, Bool.not_false, if_true] at h5
        have := defaultSecondaries_shape cfg dfl w hostname _ _ h5
        simp [Event.isBackendLoopEvent] at this
      · simp [h5f] at h5
  · intro s k hm
    rw [hrd, htr] at hm
    simp only [List.mem_append] at hm
    rcases hm with ((((h1 | h2) | h3) | h4) | h5)
    · simp at h1
    · simp at h2
    · cases h3f : (dfl.doPrune && !dfl.noPrune) <;> simp [h3f] at h3
    · cases h4f : ((dfl.doCheck || dfl.deep) && !dfl.noCheck) <;> simp [h4f] at h4
    · cases h5f : cfg.copyToBackends.isEmpty
      · simp only [h5f, Bool.not_false, if_true] at h5
        have := defaultSecondaries_shape cfg dfl w hostname _ _ h5
        simp [Event.isBackendLoopEvent] at this
      · simp [h5f] at h5
  · rw [hrd, htr]
    cases h3f : (dfl.doPrune && !dfl.noPrune) <;>
      cases h4f : ((dfl.doCheck || dfl.deep) && !dfl.noCheck) <;>
      cases h5f : cfg.copyToBackends.isEmpty <;>
      simp [h3f, h4f, h5f, Event.isOnErrorHook, List.countP_append, List.countP_cons,
        countP_flatMap_zero Event.isOnErrorHook
          (fun n => (defaultBackendStep cfg dfl w hostname n).1) cfg.copyToBackends
          (fun n _ => defaultBackendStep_onerror_count cfg dfl w hostname n)]
  · rw [hrd, htr]
    simp
  · intro n hn hex
    have hne : cfg.copyToBackends.isEmpty = false := by
      simp [List.isEmpty_iff]
      exact List.ne_nil_of_mem hn
    rw [hrd, htr]
    simp only [hne, Bool.not_false, if_true, List.mem_append]
    refine Or.inr ?_
    rw [List.mem_flatMap]
    refine ⟨n, hn, ?_⟩
    rw [defaultBackendStep_trace]
    cases hcn : w.copyOk n <;> simp [hex, hcn]

/-- C2 witness: concrete run with a failing pre-backup hook — the backup
subcommand aborts with that error, the default workflow skips backup and
post-backup, fires on-error once, and continues to forget and copy. -/
theorem pre_backup_failure_gate_witness :
    runBackup cfg1 bfl1 wPreFail = ([Event.hookPre false, Event.hookOnError], some .preHook) ∧
    Event.backup true ∉ (runDefaultWorkflow cfg1 dfl1 wPreFail "hostA").trace ∧
    Event.hookPost true true ∉ (runDefaultWorkflow cfg1 dfl1 wPreFail "hostA").trace ∧
    (runDefaultWorkflow cfg1 dfl1 wPreFail "hostA").trace.countP Event.isOnErrorHook = 1 ∧
    Event.forget .primary (mkForgetOpts cfg1.retention "hostA") true ∈
      (runDefaultWorkflow cfg1 dfl1 wPreFail "hostA").trace ∧
    Event.copy "b1" true ∈ (runDefaultWorkflow cfg1 dfl1 wPreFail "hostA").trace := by
  have thm := pre_backup_failure_gate cfg1 bfl1 dfl1 wPreFail "hostA"
    (by decide) (by decide) (by decide) (by decide) (by decide) (by decide)
    (by decide) (by decide) (by decide)
  exact ⟨thm.1, thm.2.1 true, thm.2.2.1 true true, thm.2.2.2.1, thm.2.2.2.2.1,
    thm.2.2.2.2.2 "b1" (by decide) (by decide)⟩

end Resticm
